import Mathlib

/-!
Shallow embedding of the ScanR capture-session core (React/JS frontend).

Sources embedded here:
- `src/src/App.jsx` — roster navigation (`getNextStudent`), manual advancement
  (`handleNextStudent`), upload packaging (`handlePhotosCaptured`).
- `src/unnamed/part_000` — an alternative revision of `App.jsx` whose
  `getNextStudent` uses a different eligibility predicate and whose
  `handlePhotosCaptured` auto-advances after a successful upload.
- `src/src/components/PhotoCapture.jsx` — the capture session component
  (two packed revisions; the page-buffer, finish, camera-setup and
  take-photo logic relevant here is identical in both except where noted):
  `addCurrentPhotoToCaptured`, `handleRemovePhoto`, `handleFinish`,
  `setupCamera`, `handleTakePhoto`, and the camera-lifecycle `useEffect`.

Machine-level conventions: JS photo ids (`Date.now() + Math.random()`) are
modelled as caller-supplied `Nat` values; image payloads (base64 data URLs)
as `String`; a `MediaStream` as a `Nat` handle.
-/

/-- Student workflow status as used by the roster (`status` field in JS:
the strings "Pending", "Absent", "Missing"). -/
inductive Status
  | Pending
  | Absent
  | Missing
deriving DecidableEq, Repr

/-- A roster entry, restricted to the fields read by the embedded functions:
the opaque id (JS `_id`, a string), the workflow `status`, and the
`isScanned` flag.  Roll number, name, remark and `pdfPath` are carried by
the JS objects but never read by the navigation logic. -/
structure Student where
  sid : String
  status : Status
  isScanned : Bool
deriving DecidableEq, Repr

/-- `getNextStudent` from `src/src/App.jsx` (lines 96-110).
JS:
  if (!selectedStudent || students.length === 0) return null;
  const currentIndex = students.findIndex(s => s._id === selectedStudent._id);
  if (currentIndex === -1) return null;
  for (let i = currentIndex + 1; i < students.length; i++)
    if (students[i].status === 'Pending' && !students[i].isScanned)
      return students[i];
  return null;
The forward for-loop returning the first match is `List.find?` on the
suffix after `currentIndex`. -/
def getNextStudent (students : List Student) (selectedStudent : Option Student) :
    Option Student :=
  match selectedStudent with
  | none => none
  | some sel =>
    if students.length = 0 then none
    else
      match students.findIdx? (fun s => s.sid == sel.sid) with
      | none => none
      | some currentIndex =>
        (students.drop (currentIndex + 1)).find?
          (fun s => s.status == Status.Pending && !s.isScanned)

/-- `getNextStudent` from `src/unnamed/part_000` (lines 126-147), the
alternative revision of `App.jsx`.  Its loop filter is
`!students[i].isScanned && students[i].status !== 'Absent'`, and after the
loop it returns null both when `currentPage < totalPages` (with a log
message) and otherwise. -/
def getNextStudentV2 (students : List Student) (selectedStudent : Option Student)
    (currentPage totalPages : Nat) : Option Student :=
  match selectedStudent with
  | none => none
  | some sel =>
    if students.length = 0 then none
    else
      match students.findIdx? (fun s => s.sid == sel.sid) with
      | none => none
      | some currentIndex =>
        match (students.drop (currentIndex + 1)).find?
            (fun s => !s.isScanned && s.status != Status.Absent) with
        | some st => some st
        | none => if currentPage < totalPages then none else none

/-- Manual advancement target in `src/unnamed/part_000` (`handleNextStudent`,
lines 150-163): it calls `getNextStudent()` on the closure state
`(students, selectedStudent, currentPage, totalPages)`. -/
def manualAdvanceTarget (students : List Student) (selectedStudent : Option Student)
    (currentPage totalPages : Nat) : Option Student :=
  getNextStudentV2 students selectedStudent currentPage totalPages

/-- Automatic post-upload advancement target in `src/unnamed/part_000`
(`handlePhotosCaptured` success branch, lines 99-110): it calls the same
`getNextStudent()` on the same closure state. -/
def autoAdvanceTarget (students : List Student) (selectedStudent : Option Student)
    (currentPage totalPages : Nat) : Option Student :=
  getNextStudentV2 students selectedStudent currentPage totalPages

/-- Manual advancement target in `src/src/App.jsx` (`handleNextStudent`,
lines 112-122): it calls `getNextStudent()`. -/
def manualAdvanceTargetMain (students : List Student) (selectedStudent : Option Student) :
    Option Student :=
  getNextStudent students selectedStudent

/-- Automatic advancement target in the `src/src` pairing: after a
successful finish, `PhotoCapture.jsx` (second revision, lines 956-960)
invokes `onNextStudent`, which is `App.jsx`'s `handleNextStudent`, which
selects via the same `getNextStudent()`. -/
def autoAdvanceTargetMain (students : List Student) (selectedStudent : Option Student) :
    Option Student :=
  getNextStudent students selectedStudent

/-- A captured page in the Page Buffer (`PhotoCapture.jsx`), restricted to
the fields the embedded operations read: `id` (JS `Date.now() + Math.random()`,
modelled as a caller-supplied `Nat`), `data` (the base64 image payload) and
the stored `pageNumber`.  The JS objects also carry `timestamp` and
`studentRoll`, which no embedded operation reads. -/
structure Photo where
  id : Nat
  data : String
  pageNumber : Nat
deriving DecidableEq, Repr

/-- `addCurrentPhotoToCaptured` from `PhotoCapture.jsx` (lines 208-230):
builds `newPhoto` with `pageNumber: (capturedPhotos?.length || 0) + 1` and
appends it via `onPhotosUpdate(prev => [...prev, newPhoto])`.  In this
single-threaded embedding the `capturedPhotos` prop and the functional
update's `prev` are the same buffer. -/
def appendPhoto (capturedPhotos : List Photo) (newId : Nat) (imageData : String) :
    List Photo :=
  capturedPhotos ++ [⟨newId, imageData, capturedPhotos.length + 1⟩]

/-- `handleRemovePhoto` from `PhotoCapture.jsx` (lines 455-462):
`onPhotosUpdate(prev => prev.filter(photo => photo.id !== photoId))`. -/
def removePhoto (capturedPhotos : List Photo) (photoId : Nat) : List Photo :=
  capturedPhotos.filter (fun photo => photo.id != photoId)

/-- An operation on the Page Buffer, as performed by the two mutators
`addCurrentPhotoToCaptured` (append) and `handleRemovePhoto` (remove). -/
inductive BufOp
  | append (newId : Nat) (imageData : String)
  | remove (photoId : Nat)
deriving DecidableEq, Repr

/-- Apply one buffer operation. -/
def applyOp (buf : List Photo) : BufOp → List Photo
  | .append newId imageData => appendPhoto buf newId imageData
  | .remove photoId => removePhoto buf photoId

/-- Apply a sequence of buffer operations, oldest first. -/
def applyOps (buf : List Photo) (ops : List BufOp) : List Photo :=
  ops.foldl applyOp buf

/-- Whether a buffer operation is an append. -/
def isAppend : BufOp → Bool
  | .append _ _ => true
  | .remove _ => false

/-- `numberedFrom k buf` holds when the stored page numbers in `buf` are
exactly `k, k+1, k+2, ...` in order. -/
def numberedFrom : Nat → List Photo → Bool
  | _, [] => true
  | k, p :: rest => (p.pageNumber == k) && numberedFrom (k + 1) rest

/-- The claimed Page Buffer invariant: each page's stored `pageNumber`
equals its 1-based position in the buffer. -/
def pagesMatchPositions (buf : List Photo) : Bool :=
  numberedFrom 1 buf

/-- Result reported by the `onFinish` collaborator call inside
`handleFinish`: the JS promise resolves `true` (success), resolves `false`
(upload failure reported by the parent), or rejects (an error is thrown). -/
inductive UploadOutcome
  | success
  | failureResponse
  | thrown
deriving DecidableEq, Repr

/-- State observable after `handleFinish` returns: the Page Buffer
(`capturedPhotos`), the pending frame (`currentPhoto`), the batches passed
to the `onFinish` collaborator during the call, and whether the
zero-pages validation alert fired. -/
structure FinishState where
  capturedPhotos : List Photo
  currentPhoto : Option String
  uploadCalls : List (List Photo)
  validationAlert : Bool
deriving DecidableEq, Repr

/-- `handleFinish` from `PhotoCapture.jsx` (first revision lines 254-310;
the second revision, lines 923-979, is identical in these effects).
JS:
  const totalPhotos = (capturedPhotos?.length || 0) + (currentPhoto ? 1 : 0);
  if (totalPhotos === 0) alert(...); return;          -- no onFinish call
  let finalPhotos = [...(capturedPhotos || [])];
  if (currentPhoto) finalPhotos.push(newPhoto with pageNumber = length + 1);
  const success = await onFinish(finalPhotos);
  if (success) setCurrentPhoto(null); onPhotosUpdate([]);
  else (or on throw): buffer and currentPhoto untouched.
`newId` models the `Date.now()` id of the folded-in pending frame;
`uploadResult` models the collaborator's response. -/
def handleFinish (capturedPhotos : List Photo) (currentPhoto : Option String)
    (newId : Nat) (uploadResult : UploadOutcome) : FinishState :=
  let totalPhotos := capturedPhotos.length +
    (match currentPhoto with | some _ => 1 | none => 0)
  if totalPhotos = 0 then
    ⟨capturedPhotos, currentPhoto, [], true⟩
  else
    let finalPhotos := capturedPhotos ++
      (match currentPhoto with
       | some d => [⟨newId, d, capturedPhotos.length + 1⟩]
       | none => [])
    match uploadResult with
    | .success => ⟨[], none, [finalPhotos], false⟩
    | .failureResponse => ⟨capturedPhotos, currentPhoto, [finalPhotos], false⟩
    | .thrown => ⟨capturedPhotos, currentPhoto, [finalPhotos], false⟩

/-- The `finalPhotos` batch computed by `handleFinish`: the Page Buffer
with the pending frame, if present, appended last with page number
buffer length + 1. -/
def foldPending (buf : List Photo) (cur : Option String) (newId : Nat) :
    List Photo :=
  buf ++ (match cur with
          | some d => [⟨newId, d, buf.length + 1⟩]
          | none => [])

/-- A file handed to the Scan Uploader: name, MIME type, payload
(mirrors `new File([blob], name, type)` in `handlePhotosCaptured`). -/
structure ImageFile where
  name : String
  mime : String
  data : String
deriving DecidableEq, Repr

/-- `handlePhotosCaptured` upload packaging from `src/src/App.jsx`
(lines 52-76; identically in `src/unnamed/part_000` lines 53-88).
JS:
  if (!selectedStudent || photosArray.length === 0) return false;  -- no upload
  photosArray.map((photo, index) =>
    new File([blob(photo.data)], page_N.jpg with N = index + 1,
             type 'image/jpeg'));
  formData.append('images', file) in array order.
The result is `some files` when an upload request is made with exactly
those files in that order, `none` when no upload request is made. -/
def handlePhotosCaptured (selectedStudent : Option Student)
    (photosArray : List Photo) : Option (List ImageFile) :=
  match selectedStudent with
  | none => none
  | some _ =>
    if photosArray.length = 0 then none
    else
      some (photosArray.enum.map (fun ip =>
        ⟨"page_" ++ toString (ip.1 + 1) ++ ".jpg", "image/jpeg", ip.2.data⟩))

/-- Camera facing mode requested from `getUserMedia`. -/
inductive Facing
  | environment
  | user
deriving DecidableEq, Repr

/-- The video constraints built by `setupCamera`: a facing mode and the
ideal resolution. -/
structure MediaConstraints where
  facing : Facing
  idealWidth : Nat
  idealHeight : Nat
deriving DecidableEq, Repr

/-- The primary-tier constraints of `setupCamera` (`PhotoCapture.jsx`
lines 47-53): environment facing, ideal 1280 by 720. -/
def envConstraints : MediaConstraints := ⟨Facing.environment, 1280, 720⟩

/-- The fallback-tier constraints of `setupCamera` (lines 71-77): user
facing, ideal 1280 by 720. -/
def userConstraints : MediaConstraints := ⟨Facing.user, 1280, 720⟩

/-- Result of one `setupCamera` run: the `getUserMedia` requests issued in
order, the streams whose tracks were stopped beforehand, and the resulting
component state (`stream`, `cameraReady`, `cameraError`). -/
structure CameraResult where
  attempts : List MediaConstraints
  stopped : List Nat
  stream : Option Nat
  cameraReady : Bool
  cameraError : Option String
deriving DecidableEq, Repr

/-- `setupCamera` from `PhotoCapture.jsx` (lines 37-94).  `getUserMedia`
models the platform: for given constraints it yields a stream handle or
fails.  `prevStream` is the `stream` value seen by this call's closure.
JS: stop existing stream's tracks if any; request environment-facing
1280x720; on failure request user-facing 1280x720; on second failure set
`cameraError` and `cameraReady = false`. -/
def setupCamera (getUserMedia : MediaConstraints → Option Nat)
    (prevStream : Option Nat) : CameraResult :=
  let stoppedPrev := match prevStream with | some t => [t] | none => []
  match getUserMedia envConstraints with
  | some s => ⟨[envConstraints], stoppedPrev, some s, true, none⟩
  | none =>
    match getUserMedia userConstraints with
    | some s => ⟨[envConstraints, userConstraints], stoppedPrev, some s, true, none⟩
    | none =>
      ⟨[envConstraints, userConstraints], stoppedPrev, none, false,
       some "Camera access failed. Please check permissions and ensure camera is available."⟩

/-- The `disabled` attribute of the file-import controls shown in the
camera-error view (`PhotoCapture.jsx` first revision: hidden file input
line 541 and the file-upload button lines 558-564): both are
`disabled = uploading`. -/
def fileImportDisabled (uploading : Bool) : Bool := uploading

/-- Camera-session lifecycle state for the camera-release analysis:
`cleanupStream` is the `stream` value captured by the mount effect's
cleanup closure (the effect at `PhotoCapture.jsx` lines 421-445 has an
empty dependency array, so that closure permanently holds the first
render's value), `stream` is the current component state, `stopped` lists
every stream handle whose tracks have been stopped. -/
structure CamSession where
  cleanupStream : Option Nat
  stream : Option Nat
  stopped : List Nat
deriving DecidableEq, Repr

/-- Component mount (`useEffect` with `[]` deps, lines 421-445): at the
first render `stream` is `null`; the effect calls `setupCamera` through a
closure in which `stream = null`, and its cleanup closure captures that
same first-render `stream = null`. -/
def mountSession (getUserMedia : MediaConstraints → Option Nat) : CamSession :=
  let r := setupCamera getUserMedia none
  ⟨none, r.stream, r.stopped⟩

/-- `handleRetryCamera` (lines 465-469): calls `setupCamera` from a fresh
render, whose closure sees the current `stream`, so the live stream is
stopped before the new acquisition. -/
def retryCamera (s : CamSession) (getUserMedia : MediaConstraints → Option Nat) :
    CamSession :=
  let r := setupCamera getUserMedia s.stream
  ⟨s.cleanupStream, r.stream, s.stopped ++ r.stopped⟩

/-- Component unmount: the mount effect's cleanup runs
`if (stream) stream.getTracks().forEach(track => track.stop())` where
`stream` is the value captured at mount time (`cleanupStream`). -/
def unmountSession (s : CamSession) : CamSession :=
  match s.cleanupStream with
  | some t => ⟨s.cleanupStream, none, s.stopped ++ [t]⟩
  | none => s

/-- Component state read and written by `handleTakePhoto`. -/
structure CaptureState where
  isProcessing : Bool
  cameraReady : Bool
  stream : Option Nat
  currentPhoto : Option String
  capturedPhotos : List Photo
deriving DecidableEq, Repr

/-- `handleTakePhoto` from `PhotoCapture.jsx` (lines 97-143).
JS guard: `if (isProcessing || !cameraReady || !stream) return;` — the
request is dropped, nothing is queued and no state changes.  Otherwise
`isProcessing` is set and the capture runs; `captureResult` models its
outcome (`some img`: the reader/canvas delivers a frame which becomes the
pending `currentPhoto` with `isProcessing` reset; `none`: the attempt
fails, `isProcessing` is reset, state otherwise untouched). -/
def handleTakePhoto (s : CaptureState) (captureResult : Option String) :
    CaptureState :=
  if s.isProcessing || !s.cameraReady || s.stream.isNone then s
  else
    match captureResult with
    | some img => { s with currentPhoto := some img, isProcessing := false }
    | none => { s with isProcessing := false }

/-- Concrete roster entry: pending, unscanned. -/
def studentA : Student := ⟨"a", Status.Pending, false⟩

/-- Concrete roster entry: absent. -/
def studentB : Student := ⟨"b", Status.Absent, false⟩

/-- Concrete roster entry: pending, unscanned. -/
def studentC : Student := ⟨"c", Status.Pending, false⟩

/-- Concrete roster entry: missing, unscanned. -/
def studentM : Student := ⟨"m", Status.Missing, false⟩

/-- The spec's navigation scenario roster: A pending-unscanned, B absent,
C pending-unscanned. -/
def rosterABC : List Student := [studentA, studentB, studentC]

/-- Buffer operation sequence: append two pages, then remove the first. -/
def cexOps : List BufOp := [.append 1 "d1", .append 2 "d2", .remove 1]

/-- Buffer with two committed pages, built by two appends (the spec's
upload scenario for student A). -/
def scenBuf : List Photo := appendPhoto (appendPhoto [] 1 "img1") 2 "img2"

/-- A single committed page. -/
def photoOne : Photo := ⟨1, "img1", 1⟩

/-- Platform on which both camera tiers fail. -/
def envBothFail : MediaConstraints → Option Nat := fun _ => none

/-- Platform on which every acquisition yields stream handle 7. -/
def envOk7 : MediaConstraints → Option Nat := fun _ => some 7

/-! Helper lemmas. -/

/-- The loop filter of `getNextStudent` in boolean form is exactly the
spec's eligibility predicate. -/
theorem eligible_iff (t : Student) :
    (t.status == Status.Pending && !t.isScanned) = true ↔
      (t.status = Status.Pending ∧ t.isScanned = false) := by
  simp [Bool.and_eq_true, Bool.not_eq_true']

/-- A successful `find?` returns an element of the list, satisfying the
predicate, with every earlier element failing it. -/
theorem find?_forward {α : Type} (p : α → Bool) :
    ∀ (l : List α) (a : α), l.find? p = some a →
      ∃ j, l.get? j = some a ∧ p a = true ∧
        ∀ k t, k < j → l.get? k = some t → p t = false := by
  intro l
  induction l with
  | nil => intro a h; simp [List.find?] at h
  | cons b l ih =>
    intro a h
    by_cases hb : p b = true
    · rw [List.find?_cons_of_pos l hb] at h
      cases h
      exact ⟨0, rfl, hb, fun k t hk _ => absurd hk (Nat.not_lt_zero k)⟩
    · rw [List.find?_cons_of_neg l (by simpa using hb)] at h
      obtain ⟨j, hj, hpa, hmin⟩ := ih a h
      refine ⟨j + 1, by simpa using hj, hpa, ?_⟩
      intro k t hk hkt
      cases k with
      | zero =>
        have : t = b := by simpa using hkt.symm
        subst this
        simpa using hb
      | succ k => exact hmin k t (Nat.lt_of_succ_lt_succ hk) (by simpa using hkt)

/-- `getNextStudent` with a selected student reduces to the forward
`find?` after the found index; the emptiness check is subsumed. -/
theorem getNextStudent_eq (students : List Student) (sel : Student) :
    getNextStudent students (some sel) =
      match students.findIdx? (fun s => s.sid == sel.sid) with
      | none => none
      | some i =>
        (students.drop (i + 1)).find?
          (fun s => s.status == Status.Pending && !s.isScanned) := by
  cases students with
  | nil => rfl
  | cons a l => rfl

/-- Appending one photo keeps `numberedFrom` exactly when the new photo's
stored number continues the run. -/
theorem numberedFrom_append (p : Photo) :
    ∀ (buf : List Photo) (k : Nat),
      numberedFrom k (buf ++ [p]) =
        (numberedFrom k buf && (p.pageNumber == k + buf.length)) := by
  intro buf
  induction buf with
  | nil => intro k; simp [numberedFrom]
  | cons q rest ih =>
    intro k
    have hcons : numberedFrom k ((q :: rest) ++ [p]) =
        ((q.pageNumber == k) && numberedFrom (k + 1) (rest ++ [p])) := rfl
    have hcons2 : numberedFrom k (q :: rest) =
        ((q.pageNumber == k) && numberedFrom (k + 1) rest) := rfl
    rw [hcons, ih (k + 1), hcons2, Bool.and_assoc]
    have harith : k + 1 + rest.length = k + (q :: rest).length := by
      simp only [List.length_cons]
      omega
    rw [harith]

/-- Invariant: applying only appends preserves consecutive numbering. -/
theorem applyOps_append_only :
    ∀ (ops : List BufOp) (buf : List Photo),
      (∀ op ∈ ops, isAppend op = true) →
      numberedFrom 1 buf = true →
      numberedFrom 1 (applyOps buf ops) = true := by
  intro ops
  induction ops with
  | nil => intro buf _ hbuf; simpa [applyOps] using hbuf
  | cons op ops ih =>
    intro buf h hbuf
    have hop : isAppend op = true := h op (List.mem_cons_self op ops)
    cases op with
    | append nid d =>
      have hstep : applyOps buf (BufOp.append nid d :: ops) =
          applyOps (appendPhoto buf nid d) ops := rfl
      rw [hstep]
      apply ih _ (fun o ho => h o (List.mem_cons_of_mem _ ho))
      show numberedFrom 1 (buf ++ [⟨nid, d, buf.length + 1⟩]) = true
      rw [numberedFrom_append]
      simp [hbuf, Nat.add_comm]
    | remove pid => simp [isAppend] at hop

/-- Indexing into `enumFrom`. -/
theorem enumFrom_get? {α : Type} :
    ∀ (l : List α) (n i : Nat),
      (List.enumFrom n l).get? i = (l.get? i).map (fun a => (n + i, a)) := by
  intro l
  induction l with
  | nil => intro n i; simp [List.enumFrom]
  | cons a l ih =>
    intro n i
    cases i with
    | zero => simp [List.enumFrom]
    | succ i =>
      have harith : n + (i + 1) = n + 1 + i := by omega
      simp [List.enumFrom, ih (n + 1) i, harith]

/-- The packaged file list depends only on the image payloads, not on ids
or stored page numbers. -/
theorem pack_map_eq :
    ∀ (l1 l2 : List Photo) (n : Nat),
      l1.map Photo.data = l2.map Photo.data →
      (List.enumFrom n l1).map (fun ip =>
          (⟨"page_" ++ toString (ip.1 + 1) ++ ".jpg", "image/jpeg", ip.2.data⟩ :
            ImageFile)) =
        (List.enumFrom n l2).map (fun ip =>
          ⟨"page_" ++ toString (ip.1 + 1) ++ ".jpg", "image/jpeg", ip.2.data⟩) := by
  intro l1
  induction l1 with
  | nil =>
    intro l2 n h
    cases l2 with
    | nil => rfl
    | cons q l2 => simp at h
  | cons p l1 ih =>
    intro l2 n h
    cases l2 with
    | nil => simp at h
    | cons q l2 =>
      simp only [List.map_cons, List.cons.injEq] at h
      simp [List.enumFrom, h.1, ih l2 (n + 1) h.2]

/-! Claim theorems. -/

/-- Claim C1, counterexample: the repository's second `getNextStudent`
revision (`src/unnamed/part_000`) returns a student whose status is
Missing, contradicting the claim that `getNextStudent` never returns a
student with status other than Pending. -/
theorem getNextStudentV2_returns_missing :
    getNextStudentV2 [studentA, studentM] (some studentA) 1 1 = some studentM ∧
      studentM.status = Status.Missing ∧ studentM.status ≠ Status.Pending := by
  refine ⟨by decide, rfl, by decide⟩

/-- Claim C1 (amended to the `src/src/App.jsx` revision of
`getNextStudent`): any returned student is Pending and unscanned, sits
strictly after `currentId`'s index, and is the first qualifying student
after that index (no wrap-around); the result is `none` when `currentId`
is not found or when no qualifying student follows it; a `none` selection
yields `none`.  Purity holds by construction: the result is a function of
`(students, selectedStudent)` alone. -/
theorem getNextStudent_forward_scan (students : List Student) (sel : Student) :
    (∀ st, getNextStudent students (some sel) = some st →
        st.status = Status.Pending ∧ st.isScanned = false ∧
        ∃ i j, students.findIdx? (fun s => s.sid == sel.sid) = some i ∧
          i < j ∧ students.get? j = some st ∧
          ∀ k t, i < k → k < j → students.get? k = some t →
            ¬(t.status = Status.Pending ∧ t.isScanned = false)) ∧
    (students.findIdx? (fun s => s.sid == sel.sid) = none →
        getNextStudent students (some sel) = none) ∧
    (∀ i, students.findIdx? (fun s => s.sid == sel.sid) = some i →
        (∀ t ∈ students.drop (i + 1),
            ¬(t.status = Status.Pending ∧ t.isScanned = false)) →
        getNextStudent students (some sel) = none) ∧
    getNextStudent students none = none := by
  refine ⟨?_, ?_, ?_, rfl⟩
  · intro st h
    rw [getNextStudent_eq] at h
    cases hidx : students.findIdx? (fun s => s.sid == sel.sid) with
    | none => rw [hidx] at h; simp at h
    | some i =>
      rw [hidx] at h
      obtain ⟨jd, hjd, hpa, hmin⟩ := find?_forward _ _ _ h
      have hel := (eligible_iff st).mp hpa
      refine ⟨hel.1, hel.2, i, i + 1 + jd, rfl, by omega, ?_, ?_⟩
      · rw [← List.get?_drop]
        exact hjd
      · intro k t hik hkj hget
        have hkd : k - (i + 1) < jd := by omega
        have hgd : (students.drop (i + 1)).get? (k - (i + 1)) = some t := by
          rw [List.get?_drop]
          have harith : i + 1 + (k - (i + 1)) = k := by omega
          rw [harith]
          exact hget
        have hfalse := hmin _ t hkd hgd
        intro hcontra
        rw [(eligible_iff t).mpr hcontra] at hfalse
        cases hfalse
  · intro hnone
    rw [getNextStudent_eq, hnone]
  · intro i hidx hall
    rw [getNextStudent_eq, hidx]
    show (students.drop (i + 1)).find?
        (fun s => s.status == Status.Pending && !s.isScanned) = none
    apply List.find?_eq_none.mpr
    intro t ht hpt
    exact hall t ht ((eligible_iff t).mp hpt)

/-- Claim C1, witness: on the spec's roster (A pending, B absent, C
pending) with current student A, the returned student C is pending,
unscanned, strictly after A's index, and first qualifying. -/
theorem getNextStudent_forward_scan_witness :
    studentC.status = Status.Pending ∧ studentC.isScanned = false ∧
      ∃ i j, rosterABC.findIdx? (fun s => s.sid == studentA.sid) = some i ∧
        i < j ∧ rosterABC.get? j = some studentC ∧
        ∀ k t, i < k → k < j → rosterABC.get? k = some t →
          ¬(t.status = Status.Pending ∧ t.isScanned = false) :=
  (getNextStudent_forward_scan rosterABC studentA).1 studentC (by decide)

/-- Claim C2, counterexample: append two pages then remove the first —
the surviving page sits at 1-based position 1 but its stored page number
is 2 (a gap); a further append then stores a duplicate page number 2. -/
theorem pageBuffer_stored_numbers_gap :
    pagesMatchPositions (applyOps [] cexOps) = false ∧
      applyOps [] cexOps = [⟨2, "d2", 2⟩] ∧
      (applyOps [] (cexOps ++ [BufOp.append 3 "d3"])).map Photo.pageNumber
        = [2, 2] := by
  refine ⟨by decide, by decide, by decide⟩

/-- Claim C2 (amended): for every sequence of append operations (no
removals) on an initially empty Page Buffer, each page's stored page
number equals its 1-based position in the final order — append assigns
page number = previous buffer length + 1.  After a removal the stored
numbers are not renumbered, so they can exceed the position and later
appends can duplicate them (see the counterexample); position-derived
numbering is restored only because upload packaging uses array indices. -/
theorem pageBuffer_appendOnly_numbers (ops : List BufOp)
    (h : ∀ op ∈ ops, isAppend op = true) :
    pagesMatchPositions (applyOps [] ops) = true :=
  applyOps_append_only ops [] h rfl

/-- Claim C2, witness: two appends yield stored numbers 1, 2 matching
positions. -/
theorem pageBuffer_appendOnly_numbers_witness :
    pagesMatchPositions (applyOps [] [BufOp.append 1 "d1", BufOp.append 2 "d2"])
      = true :=
  pageBuffer_appendOnly_numbers [BufOp.append 1 "d1", BufOp.append 2 "d2"]
    (by decide)

/-- Claim C3: when the total page set is nonempty, a successful finish
clears the Page Buffer and the pending frame unconditionally, and a
reported failure or a thrown error leaves both exactly as they were. -/
theorem handleFinish_transactional (buf : List Photo) (cur : Option String)
    (newId : Nat) (r : UploadOutcome)
    (h : buf.length + (match cur with | some _ => 1 | none => 0) ≠ 0) :
    (r = UploadOutcome.success →
        (handleFinish buf cur newId r).capturedPhotos = [] ∧
        (handleFinish buf cur newId r).currentPhoto = none) ∧
    (r ≠ UploadOutcome.success →
        (handleFinish buf cur newId r).capturedPhotos = buf ∧
        (handleFinish buf cur newId r).currentPhoto = cur) := by
  cases r with
  | success =>
    refine ⟨fun _ => ?_, fun hr => absurd rfl hr⟩
    constructor <;> simp [handleFinish, h]
  | failureResponse =>
    refine ⟨(fun hr => nomatch hr), fun _ => ?_⟩
    constructor <;> simp [handleFinish, h]
  | thrown =>
    refine ⟨(fun hr => nomatch hr), fun _ => ?_⟩
    constructor <;> simp [handleFinish, h]

/-- Claim C3, witness: with one committed page and no pending frame, a
successful finish leaves an empty buffer and no pending frame. -/
theorem handleFinish_transactional_witness :
    (handleFinish [photoOne] none 5 UploadOutcome.success).capturedPhotos = [] ∧
      (handleFinish [photoOne] none 5 UploadOutcome.success).currentPhoto = none :=
  (handleFinish_transactional [photoOne] none 5 UploadOutcome.success
    (by decide)).1 rfl

/-- Claim C4: finishing with an empty buffer and no pending frame raises
the validation alert, performs zero collaborator calls, and changes no
state, for every upload-collaborator behaviour; the App-level guard
likewise makes no upload request for an empty photo array. -/
theorem handleFinish_empty_validation :
    (∀ (newId : Nat) (r : UploadOutcome),
        handleFinish [] none newId r = ⟨[], none, [], true⟩) ∧
    (∀ sel : Option Student, handlePhotosCaptured sel [] = none) := by
  refine ⟨fun newId r => rfl, fun sel => ?_⟩
  cases sel with
  | none => rfl
  | some s => rfl

/-- Claim C5: whenever the total page set is nonempty, the batch submitted
to the collaborator is exactly the Page Buffer in capture order with the
pending frame, if present, given page number buffer length + 1 and
appended last — never dropped — and this is the only call made. -/
theorem handleFinish_submits_buffer_plus_pending (buf : List Photo)
    (cur : Option String) (newId : Nat) (r : UploadOutcome)
    (h : buf.length + (match cur with | some _ => 1 | none => 0) ≠ 0) :
    (handleFinish buf cur newId r).uploadCalls = [foldPending buf cur newId] := by
  cases cur <;> cases r <;> simp [handleFinish, foldPending] at h ⊢ <;> simp [h]

/-- Claim C5, witness: two committed pages plus a pending third frame
submit exactly 3 images in capture order with page numbers 1, 2, 3. -/
theorem handleFinish_submits_buffer_plus_pending_witness :
    (handleFinish scenBuf (some "img3") 3 UploadOutcome.success).uploadCalls =
      [[⟨1, "img1", 1⟩, ⟨2, "img2", 2⟩, ⟨3, "img3", 3⟩]] := by
  rw [handleFinish_submits_buffer_plus_pending scenBuf (some "img3") 3
    UploadOutcome.success (by decide)]
  decide

/-- Claim C6: camera acquisition always requests the environment-facing
device at ideal 1280x720 first; the user-facing device at the same
resolution is requested only when that fails; when both tiers fail the
component reaches the camera-error state (`cameraError` set,
`cameraReady` false, no stream) and the file-import controls remain
enabled while no upload is in flight. -/
theorem setupCamera_tier_order (getUserMedia : MediaConstraints → Option Nat)
    (prevStream : Option Nat) :
    (setupCamera getUserMedia prevStream).attempts.head? = some envConstraints ∧
    (∀ s, getUserMedia envConstraints = some s →
        (setupCamera getUserMedia prevStream).attempts = [envConstraints] ∧
        (setupCamera getUserMedia prevStream).stream = some s ∧
        (setupCamera getUserMedia prevStream).cameraReady = true) ∧
    (getUserMedia envConstraints = none →
        (setupCamera getUserMedia prevStream).attempts
          = [envConstraints, userConstraints]) ∧
    (getUserMedia envConstraints = none → getUserMedia userConstraints = none →
        (setupCamera getUserMedia prevStream).cameraReady = false ∧
        (setupCamera getUserMedia prevStream).cameraError.isSome = true ∧
        (setupCamera getUserMedia prevStream).stream = none ∧
        fileImportDisabled false = false) := by
  cases henv : getUserMedia envConstraints with
  | some s =>
    refine ⟨by simp [setupCamera, henv], ?_, ?_, ?_⟩
    · intro t ht
      cases ht
      simp [setupCamera, henv]
    · intro hc; simp at hc
    · intro hc; simp at hc
  | none =>
    cases huser : getUserMedia userConstraints with
    | some s =>
      refine ⟨by simp [setupCamera, henv, huser], ?_, ?_, ?_⟩
      · intro t ht; simp at ht
      · intro _; simp [setupCamera, henv, huser]
      · intro _ hu; simp at hu
    | none =>
      refine ⟨by simp [setupCamera, henv, huser], ?_, ?_, ?_⟩
      · intro t ht; simp at ht
      · intro _; simp [setupCamera, henv, huser]
      · intro _ _
        refine ⟨by simp [setupCamera, henv, huser],
          by simp [setupCamera, henv, huser],
          by simp [setupCamera, henv, huser], rfl⟩

/-- Claim C6, witness: on a platform where both tiers fail, the session is
in the camera-error state and file import is enabled. -/
theorem setupCamera_tier_order_witness :
    (setupCamera envBothFail none).cameraReady = false ∧
      (setupCamera envBothFail none).cameraError.isSome = true ∧
      (setupCamera envBothFail none).stream = none ∧
      fileImportDisabled false = false :=
  (setupCamera_tier_order envBothFail none).2.2.2 rfl rfl

/-- Claim C7, failing run: mount the component on a platform where
acquisition succeeds with stream 7, then unmount (explicit close).  The
camera-lifecycle effect's cleanup closure holds the first-render `stream`
value (null, empty dependency array), so no track of the live stream is
ever stopped: the device is not released on this exit path. -/
theorem camera_not_released_on_unmount :
    (mountSession envOk7).stream = some 7 ∧
      (unmountSession (mountSession envOk7)).stopped = [] ∧
      (unmountSession (mountSession envOk7)).stream = some 7 :=
  ⟨rfl, rfl, rfl⟩

/-- Claim C8: a frame-capture request made while a capture is in flight,
while the camera is not ready, or while no stream is held, returns with
the component state — buffer, pending frame and in-flight flag —
completely unchanged, for every possible capture outcome. -/
theorem handleTakePhoto_guard (s : CaptureState) (captureResult : Option String)
    (h : s.isProcessing = true ∨ s.cameraReady = false ∨ s.stream = none) :
    handleTakePhoto s captureResult = s := by
  have hcond : (s.isProcessing || !s.cameraReady || s.stream.isNone) = true := by
    rcases h with h | h | h <;> simp [h]
  simp [handleTakePhoto, hcond]

/-- Claim C8, witness: a request while a capture is in flight leaves the
state unchanged. -/
theorem handleTakePhoto_guard_witness :
    handleTakePhoto ⟨true, true, some 1, none, []⟩ (some "img")
      = ⟨true, true, some 1, none, []⟩ :=
  handleTakePhoto_guard ⟨true, true, some 1, none, []⟩ (some "img") (Or.inl rfl)

/-- Claim C9: manual advancement and automatic post-upload advancement
select the next student through the same function on the same inputs, in
both revisions of the application, so the chosen student is always the
same. -/
theorem advance_paths_agree :
    (∀ (students : List Student) (sel : Option Student)
        (currentPage totalPages : Nat),
        manualAdvanceTarget students sel currentPage totalPages =
          autoAdvanceTarget students sel currentPage totalPages) ∧
    (∀ (students : List Student) (sel : Option Student),
        manualAdvanceTargetMain students sel = autoAdvanceTargetMain students sel) :=
  ⟨fun _ _ _ _ => rfl, fun _ _ => rfl⟩

/-- Claim C10: for a nonempty batch, the i-th submitted file (1-based) is
named page_i.jpg with MIME type image/jpeg and carries the i-th photo's
payload; the packaged files depend only on positions and payloads, never
on the stored pageNumber (or id) values. -/
theorem upload_packaging_positional (sel : Student) (photos : List Photo)
    (h : photos ≠ []) :
    (∀ files, handlePhotosCaptured (some sel) photos = some files →
        ∀ i p, photos.get? i = some p →
          files.get? i =
            some ⟨"page_" ++ toString (i + 1) ++ ".jpg", "image/jpeg", p.data⟩) ∧
    (∀ photos2 : List Photo, photos.map Photo.data = photos2.map Photo.data →
        handlePhotosCaptured (some sel) photos =
          handlePhotosCaptured (some sel) photos2) := by
  have hlen : ¬ photos.length = 0 := fun hz => h (List.length_eq_zero.mp hz)
  constructor
  · intro files hf i p hp
    have hf2 : files = photos.enum.map (fun ip =>
        (⟨"page_" ++ toString (ip.1 + 1) ++ ".jpg", "image/jpeg", ip.2.data⟩ :
          ImageFile)) := by
      simpa [handlePhotosCaptured, hlen] using hf.symm
    subst hf2
    have he : photos.enum = List.enumFrom 0 photos := rfl
    rw [List.get?_map, he, enumFrom_get?, hp]
    simp
  · intro photos2 hdata
    have hlen2 : ¬ photos2.length = 0 := by
      have hleq : photos.length = photos2.length := by
        have hml := congrArg List.length hdata
        simpa using hml
      omega
    have h1 : handlePhotosCaptured (some sel) photos
        = some (photos.enum.map (fun ip =>
            (⟨"page_" ++ toString (ip.1 + 1) ++ ".jpg", "image/jpeg", ip.2.data⟩ :
              ImageFile))) := by
      simp [handlePhotosCaptured, hlen]
    have h2 : handlePhotosCaptured (some sel) photos2
        = some (photos2.enum.map (fun ip =>
            (⟨"page_" ++ toString (ip.1 + 1) ++ ".jpg", "image/jpeg", ip.2.data⟩ :
              ImageFile))) := by
      simp [handlePhotosCaptured, hlen2]
    rw [h1, h2]
    have he1 : photos.enum = List.enumFrom 0 photos := rfl
    have he2 : photos2.enum = List.enumFrom 0 photos2 := rfl
    rw [he1, he2]
    exact congrArg some (pack_map_eq photos photos2 0 hdata)

/-- Claim C10, witness: a one-photo batch is packaged as page_1.jpg with
MIME image/jpeg, and the packaging ignores the stored page number and id. -/
theorem upload_packaging_positional_witness :
    handlePhotosCaptured (some studentA) [⟨10, "x", 9⟩] =
      handlePhotosCaptured (some studentA) [⟨99, "x", 1⟩] :=
  (upload_packaging_positional studentA [⟨10, "x", 9⟩] (by decide)).2
    [⟨99, "x", 1⟩] (by decide)
